import Mathlib

/-!
Verification development for the RAG document question-answering service.

Shallow embedding of the core operations:
- app/services/document_processor.py : DocumentProcessor (chunk_text)
- app/services/rag_pipeline.py       : RAGPipeline (generate_response,
  check_ollama_available) together with its distance-to-relevance conversion
- app/services/vector_store.py       : VectorStore.delete_document over a list
  model of the Chroma collection
- app/routes/query.py                : query_documents (the ask operation)

Text is modelled as List Char (Python strings are character sequences and all
chunking arithmetic in the source is over character positions).  Python ints
are modelled as Int.  Fallible operations return Except.  The Python for-loop
over range(0, n, step) is modelled with an explicit fuel argument that is
structurally decreasing; fuel equal to the text length is sufficient whenever
the stride is positive, which is proved below, so the fuel is not a semantic
restriction.
-/

namespace ECommRAG

/-- Whitespace test matching the characters stripped by the Python str.strip
method on ASCII text (space, tab, newline, carriage return, vertical tab,
form feed). -/
def isPySpace (c : Char) : Bool :=
  c = ' ' || c = '\t' || c = '\n' || c = '\r' || c = '\x0b' || c = '\x0c'

/-- Embedding of the Python str.strip method: remove leading and trailing
whitespace. -/
def pyStrip (s : List Char) : List Char :=
  ((s.dropWhile isPySpace).reverse.dropWhile isPySpace).reverse

/-- Helper predicate on an optional character: true when the character, if
present, is not whitespace.  Used to state that a chunk has no leading or
trailing whitespace via its head and last characters. -/
def noSpaceAt (o : Option Char) : Bool :=
  match o with
  | none => true
  | some a => !isPySpace a

/-- State of app/services/document_processor.py DocumentProcessor: the
constructor body only stores chunk_size and chunk_overlap. -/
structure DocumentProcessor where
  chunk_size : Int
  chunk_overlap : Int
deriving DecidableEq

/-- Embedding of DocumentProcessor.__init__ (document_processor.py lines
12-20).  The Except result type exposes whether construction can raise: the
source constructor performs no validation of any kind, so every input pair is
accepted and stored. -/
def DocumentProcessor.init (chunk_size : Int) (chunk_overlap : Int) :
    Except String DocumentProcessor :=
  Except.ok { chunk_size := chunk_size, chunk_overlap := chunk_overlap }

/-- Loop body of chunk_text (document_processor.py lines 98-107): the Python
loop for i in range(0, text_length, step) with body
  chunk = text[i : i + chunk_size]; if chunk.strip(): append chunk.strip();
  if i + chunk_size >= text_length: break.
The fuel argument only bounds the iteration count so the recursion is
structural; chunk_text passes fuel = text.length, which is enough when
0 < step (lemma chunkLoop_eq_specWindows below is fuel-independent). -/
def chunkLoop (text : List Char) (size step : Nat) (i : Nat) : Nat → List (List Char)
  | 0 => []
  | fuel + 1 =>
    if i < text.length then
      let w := pyStrip ((text.drop i).take size)
      let rest := if text.length ≤ i + size then [] else chunkLoop text size step (i + step) fuel
      if w = [] then rest else w :: rest
    else []

/-- Embedding of DocumentProcessor.chunk_text (document_processor.py lines
76-109).  The source returns [] for empty text before the loop; the Python
range call raises ValueError when step is zero (modelled as Except.error);
range(0, n, step) with negative step is empty, so negative strides give []. -/
def chunk_text (p : DocumentProcessor) (text : List Char) :
    Except String (List (List Char)) :=
  if text = [] then Except.ok []
  else
    let step : Int := p.chunk_size - p.chunk_overlap
    if step = 0 then Except.error "ValueError: range() arg 3 must not be zero"
    else if step < 0 then Except.ok []
    else Except.ok (chunkLoop text p.chunk_size.toNat step.toNat 0 text.length)

/-- Offsets visited by the chunk_text loop (emitted or skipped windows): the
window start positions i produced by range(0, L, step) up to and including the
first i with i + size ≥ L, mirroring the loop guard and the break in
document_processor.py lines 98-107. -/
def chunkOffsets (L size step : Nat) (i : Nat) : Nat → List Nat
  | 0 => []
  | fuel + 1 =>
    if i < L then
      i :: (if L ≤ i + size then [] else chunkOffsets L size step (i + step) fuel)
    else []

/-- Window emission at one offset: the trimmed window text[off : off + size],
or none when the trimmed window is empty (such windows are skipped). -/
def emitWindow (text : List Char) (size : Nat) (off : Nat) : Option (List Char) :=
  let w := pyStrip ((text.drop off).take size)
  if w = [] then none else some w

/-- Modelled from the spec, section 4.1 (refinement target for the chunking
claim): the window offsets of the sliding-window algorithm, starting at
offset 0 with stride step, stopping after the window whose offset satisfies
offset + size ≥ length.  Fuel bounds the recursion structurally; L + 1 is
always sufficient when 0 < step. -/
def specWindows (L size step : Nat) (i : Nat) : Nat → List Nat
  | 0 => []
  | fuel + 1 => if L ≤ i + size then [i] else i :: specWindows L size step (i + step) fuel

/-- Modelled from the spec, section 4.1 (refinement target): emit each window
text[offset : offset + size] trimmed of surrounding whitespace, skipping
windows that are empty after trimming; empty input gives an empty sequence. -/
def chunkSpec (size overlap : Int) (text : List Char) : List (List Char) :=
  if text = [] then []
  else
    (specWindows text.length size.toNat (size - overlap).toNat 0 (text.length + 1)).filterMap
      (emitWindow text size.toNat)

/-- Rounding to three decimal places, as the Python round(x, 3) call in
rag_pipeline.py line 126 (modelled over the rationals). -/
def round3 (x : ℚ) : ℚ := ((round (x * 1000) : ℤ) : ℚ) / 1000

/-- Distance-to-similarity conversion of rag_pipeline.py line 120:
similarity_score = 1.0 - distance if distance <= 1.0 else 0.0. -/
def similarity (distance : ℚ) : ℚ := if distance ≤ 1 then 1 - distance else 0

/-- Relevance score attached to each source (rag_pipeline.py line 126):
round(similarity_score, 3). -/
def relevance_score (distance : ℚ) : ℚ := round3 (similarity distance)

/-- Modelled from the spec, section 4.3 (refinement target): clamp a value
into the interval from lo to hi. -/
def clamp (x lo hi : ℚ) : ℚ := max lo (min x hi)

/-- Per-chunk metadata as stored by the vector store and read back by the
pipeline (rag_pipeline.py lines 118-125). -/
structure ChunkMeta where
  document_id : String
  filename : String
  chunk_index : Nat
deriving DecidableEq

/-- Shape of the Chroma query result consumed by generate_response: parallel
outer-nested lists of documents, metadatas and (optionally present)
distances.  The Option on distances models the Python membership test
  distances = search_results[...] if the distances key is present else [0]*n
of rag_pipeline.py line 116. -/
structure SearchResults where
  documents : List (List String)
  metadatas : List (List ChunkMeta)
  distances : Option (List (List ℚ))

/-- Response-facing source record built in rag_pipeline.py lines 122-128. -/
structure SourceDoc where
  document_id : String
  filename : String
  chunk_index : Nat
  relevance_score : ℚ
  content : String
deriving DecidableEq

/-- Structured response of generate_response (rag_pipeline.py lines 130-135). -/
structure RAGResponse where
  answer : String
  sources : List SourceDoc
  query : String
  timestamp : String

/-- Display truncation of rag_pipeline.py line 127:
doc[:200] + "..." if len(doc) > 200 else doc. -/
def truncContent (doc : String) : String :=
  if doc.length > 200 then doc.take 200 ++ "..." else doc

/-- Embedding of RAGPipeline._build_context (rag_pipeline.py lines 26-46). -/
def build_context (sr : SearchResults) : String :=
  match sr.documents with
  | [] => "No relevant context found."
  | docs0 :: _ =>
    if docs0 = [] then "No relevant context found."
    else
      let metas0 := sr.metadatas.headD []
      String.intercalate "\n"
        (((docs0.zip metas0).enum).map fun pair =>
          "[Source " ++ toString (pair.1 + 1) ++ ": " ++ pair.2.2.filename ++ "]\n"
            ++ pair.2.1 ++ "\n")

/-- Embedding of RAGPipeline._build_prompt (rag_pipeline.py lines 48-73). -/
def build_prompt (query : String) (context : String) : String :=
  "You are a helpful AI assistant for an e-commerce platform. Answer the user\x27s question based on the provided context from product documents.\n\nContext from documents:\n"
    ++ context
    ++ "\n\nUser Question: " ++ query
    ++ "\n\nInstructions:\n- Answer the question using ONLY the information from the context above\n- If the context doesn\x27t contain enough information to answer, say \"I don\x27t have enough information in the documents to answer this question.\"\n- Be concise and accurate\n- If referencing specific products or features, mention the source document\n\nAnswer:"

/-- Source extraction of rag_pipeline.py lines 112-128: guarded by the Python
truthiness test on documents and documents[0]; distances default to a list of
zeros when the key is absent; the three lists are zipped (truncating to the
shortest, as the Python zip does). -/
def extract_sources (sr : SearchResults) : List SourceDoc :=
  match sr.documents with
  | [] => []
  | docs0 :: _ =>
    if docs0 = [] then []
    else
      let metas0 := sr.metadatas.headD []
      let dists0 :=
        match sr.distances with
        | some ds => ds.headD []
        | none => List.replicate docs0.length 0
      (docs0.zip (metas0.zip dists0)).map fun triple =>
        { document_id := triple.2.1.document_id
          filename := triple.2.1.filename
          chunk_index := triple.2.1.chunk_index
          relevance_score := relevance_score triple.2.2
          content := truncContent triple.1 }

/-- Embedding of RAGPipeline.generate_response (rag_pipeline.py lines 75-135).
The generation backend (ollama client call on the built prompt) is a black
box; it is passed in as a function from the prompt to an Except value, the
error case standing for the Python exception caught at lines 108-109. -/
def generate_response (query : String) (sr : SearchResults)
    (backend : String → Except String String) (now : String) : RAGResponse :=
  let context := build_context sr
  let prompt := build_prompt query context
  let answer :=
    match backend prompt with
    | Except.ok r => String.mk (pyStrip r.toList)
    | Except.error e => "Error generating response: " ++ e
  { answer := answer
    sources := extract_sources sr
    query := query
    timestamp := now }

/-- Substring test on character lists, the Python expression a in b for
strings: true when the first list occurs contiguously inside the second
(always true for the empty list). -/
def isInfixB (needle : List Char) : List Char → Bool
  | [] => needle.isEmpty
  | c :: t => needle.isPrefixOf (c :: t) || isInfixB needle t

/-- Embedding of RAGPipeline.check_ollama_available (rag_pipeline.py lines
137-160).  The backend model listing is a black box passed in as an Except
value; the error case is the exception caught at lines 158-160, which yields
False.  The source test on each listed name is
  self.model_name in name or name.startswith(self.model_name). -/
def check_ollama_available (model_name : String)
    (listResult : Except String (List String)) : Bool :=
  match listResult with
  | Except.error _ => false
  | Except.ok model_names =>
    model_names.any fun name =>
      isInfixB model_name.toList name.toList || model_name.toList.isPrefixOf name.toList

/-- Record stored per chunk in the Chroma collection, with the metadata
fields written by vector_store.py lines 63-75 that deletion can observe. -/
structure ChunkRecord where
  id : String
  document_id : String
  filename : String
  chunk_index : Nat
deriving DecidableEq

/-- Chroma collection.get(where document_id = d) restricted to the ids field,
as used by delete_document (vector_store.py lines 118-120): the ids of all
stored chunks whose metadata matches the document id, in storage order. -/
def chromaGetIds (st : List ChunkRecord) (d : String) : List String :=
  (st.filter fun e => e.document_id == d).map fun e => e.id

/-- Chroma collection.delete(ids): remove every stored chunk whose id occurs
in the given id list (vector_store.py lines 126-128). -/
def chromaDelete (st : List ChunkRecord) (ids : List String) : List ChunkRecord :=
  st.filter fun e => !(ids.contains e.id)

/-- Embedding of VectorStore.delete_document (vector_store.py lines 108-133):
look up the ids of all chunks with the given document_id; if none match
return 0 leaving the collection unchanged; otherwise delete those ids and
return how many there were.  Returns the count together with the resulting
collection state. -/
def delete_document (st : List ChunkRecord) (document_id : String) :
    Nat × List ChunkRecord :=
  let ids := chromaGetIds st document_id
  if ids.isEmpty then (0, st)
  else (ids.length, chromaDelete st ids)

/-- Embedding of the query route query_documents (app/routes/query.py lines
42-67): with zero indexed chunks the route raises HTTPException with status
400 before any search or generation; otherwise it returns the structured
response of generate_response.  The error case carries the HTTP status code
and the detail string.  Embedding retrieval as the given SearchResults value
and the generation backend as a function, as above. -/
def query_documents (chunk_count : Nat) (sr : SearchResults)
    (backend : String → Except String String) (q : String) (now : String) :
    Except (Nat × String) RAGResponse :=
  if chunk_count = 0 then
    Except.error (400, "No documents have been indexed yet. Please upload documents first.")
  else
    Except.ok (generate_response q sr backend now)

/-! Helper lemmas about pyStrip. -/

lemma head?_dropWhile_not (p : Char → Bool) :
    ∀ (l : List Char) (a : Char), (l.dropWhile p).head? = some a → p a = false := by
  intro l
  induction l with
  | nil =>
    intro a h
    simp [List.dropWhile] at h
  | cons x t ih =>
    intro a h
    rw [List.dropWhile_cons] at h
    by_cases hx : p x = true
    · rw [if_pos hx] at h
      exact ih a h
    · rw [if_neg hx] at h
      simp only [List.head?_cons, Option.some.injEq] at h
      subst h
      simpa using hx

lemma getLast?_dropWhile (p : Char → Bool) :
    ∀ l : List Char, l.dropWhile p ≠ [] → (l.dropWhile p).getLast? = l.getLast? := by
  intro l
  induction l with
  | nil => intro h; simp [List.dropWhile] at h
  | cons x t ih =>
    intro h
    rw [List.dropWhile_cons] at h ⊢
    by_cases hx : p x = true
    · rw [if_pos hx] at h ⊢
      have ht : t ≠ [] := by
        intro he
        subst he
        simp [List.dropWhile] at h
      rw [ih h]
      cases t with
      | nil => exact absurd rfl ht
      | cons y t2 => rw [List.getLast?_cons_cons]
    · rw [if_neg hx]

lemma pyStrip_getLast?_not_space (w : List Char) (a : Char)
    (h : (pyStrip w).getLast? = some a) : isPySpace a = false := by
  unfold pyStrip at h
  rw [List.getLast?_reverse] at h
  exact head?_dropWhile_not _ _ _ h

lemma pyStrip_head?_not_space (w : List Char) (a : Char)
    (h : (pyStrip w).head? = some a) : isPySpace a = false := by
  unfold pyStrip at h
  rw [List.head?_reverse] at h
  have hD : ((w.dropWhile isPySpace).reverse.dropWhile isPySpace) ≠ [] := by
    intro he
    rw [he] at h
    simp at h
  rw [getLast?_dropWhile _ _ hD, List.getLast?_reverse] at h
  exact head?_dropWhile_not _ _ _ h

lemma pyStrip_length_le (w : List Char) : (pyStrip w).length ≤ w.length := by
  unfold pyStrip
  have h1 := (List.dropWhile_sublist (l := (w.dropWhile isPySpace).reverse) isPySpace).length_le
  have h2 := (List.dropWhile_sublist (l := w) isPySpace).length_le
  simp only [List.length_reverse] at h1 ⊢
  omega

/-! Helper lemmas connecting the chunk_text loop, its visited offsets, and
the sliding-window description. -/

lemma emitWindow_eq_none_of_le (text : List Char) (size i : Nat)
    (h : text.length ≤ i) : emitWindow text size i = none := by
  unfold emitWindow
  rw [List.drop_eq_nil_of_le h]
  simp [pyStrip]

lemma chunkLoop_eq_offsets (text : List Char) (size step : Nat) :
    ∀ (fuel i : Nat),
      chunkLoop text size step i fuel
        = (chunkOffsets text.length size step i fuel).filterMap (emitWindow text size) := by
  intro fuel
  induction fuel with
  | zero => intro i; simp [chunkLoop, chunkOffsets]
  | succ fuel ih =>
    intro i
    simp only [chunkLoop, chunkOffsets]
    by_cases hi : i < text.length
    · simp only [if_pos hi, List.filterMap_cons]
      by_cases hend : text.length ≤ i + size
      · simp only [if_pos hend]
        unfold emitWindow
        by_cases hw : pyStrip ((text.drop i).take size) = []
        · simp [hw]
        · simp [hw]
      · simp only [if_neg hend, ih]
        unfold emitWindow
        by_cases hw : pyStrip ((text.drop i).take size) = []
        · simp [hw]
        · simp [hw]
    · simp [if_neg hi]

lemma chunkLoop_eq_specWindows (text : List Char) (size step : Nat) (hstep : 0 < step) :
    ∀ (fuelA fuelB i : Nat),
      text.length - i ≤ fuelA → text.length - i < fuelB →
      chunkLoop text size step i fuelA
        = (specWindows text.length size step i fuelB).filterMap (emitWindow text size) := by
  intro fuelA
  induction fuelA with
  | zero =>
    intro fuelB i hA hB
    cases fuelB with
    | zero => omega
    | succ B =>
      have hiL : text.length ≤ i := by omega
      have hend : text.length ≤ i + size := by omega
      simp only [chunkLoop, specWindows, if_pos hend, List.filterMap_cons,
        emitWindow_eq_none_of_le text size i hiL]
      simp
  | succ fuelA ih =>
    intro fuelB i hA hB
    cases fuelB with
    | zero => omega
    | succ B =>
      by_cases hi : i < text.length
      · simp only [chunkLoop, specWindows, if_pos hi]
        by_cases hend : text.length ≤ i + size
        · simp only [if_pos hend, List.filterMap_cons]
          unfold emitWindow
          by_cases hw : pyStrip ((text.drop i).take size) = []
          · simp [hw]
          · simp [hw]
        · simp only [if_neg hend, List.filterMap_cons]
          rw [ih B (i + step) (by omega) (by omega)]
          unfold emitWindow
          by_cases hw : pyStrip ((text.drop i).take size) = []
          · simp [hw]
          · simp [hw]
      · have hiL : text.length ≤ i := by omega
        have hend : text.length ≤ i + size := by omega
        simp only [chunkLoop, specWindows, if_neg hi, if_pos hend, List.filterMap_cons,
          emitWindow_eq_none_of_le text size i hiL]
        simp

lemma chunkOffsets_cover (L size step : Nat) (hstep : 0 < step) (hss : step ≤ size) :
    ∀ (fuel i j : Nat), L - i ≤ fuel → i ≤ j → j < L →
      ∃ off ∈ chunkOffsets L size step i fuel, off ≤ j ∧ j < off + size := by
  intro fuel
  induction fuel with
  | zero => intro i j hf hij hj; omega
  | succ fuel ih =>
    intro i j hf hij hj
    have hi : i < L := lt_of_le_of_lt hij hj
    simp only [chunkOffsets, if_pos hi]
    by_cases hend : L ≤ i + size
    · exact ⟨i, by simp, hij, by omega⟩
    · by_cases hjs : j < i + step
      · refine ⟨i, by simp, hij, by omega⟩
      · obtain ⟨off, hmem, h1, h2⟩ := ih (i + step) j (by omega) (by omega) hj
        refine ⟨off, ?_, h1, h2⟩
        rw [if_neg hend]
        exact List.mem_cons_of_mem _ hmem

/-- Generic length split of a list into the part failing and the part
satisfying a Boolean predicate. -/
lemma length_filter_not_add {α : Type} (p : α → Bool) (l : List α) :
    (l.filter fun e => !(p e)).length + (l.filter p).length = l.length := by
  induction l with
  | nil => rfl
  | cons x t ih =>
    by_cases hx : p x = true <;> simp [List.filter_cons, hx] <;> omega

/-- Characterisation of the Boolean list-membership style test isPrefixOf as
an append decomposition. -/
lemma isPrefixOf_iff_append (m h : List Char) :
    m.isPrefixOf h = true ↔ ∃ t, h = m ++ t := by
  rw [List.isPrefixOf_iff_prefix]
  constructor
  · rintro ⟨t, ht⟩
    exact ⟨t, ht.symm⟩
  · rintro ⟨t, ht⟩
    exact ⟨t, ht.symm⟩

/-- Characterisation of isInfixB as a contiguous-occurrence decomposition. -/
lemma isInfixB_iff (m : List Char) :
    ∀ h : List Char, isInfixB m h = true ↔ ∃ pre post, h = pre ++ m ++ post := by
  intro h
  induction h with
  | nil =>
    simp only [isInfixB, List.isEmpty_iff]
    constructor
    · intro hm
      exact ⟨[], [], by simp [hm]⟩
    · rintro ⟨pre, post, hp⟩
      have h2 : pre = [] ∧ m = [] ∧ post = [] := by simpa using hp.symm
      exact h2.2.1
  | cons c t ih =>
    simp only [isInfixB, Bool.or_eq_true]
    constructor
    · rintro (hpre | hinf)
      · obtain ⟨s, hs⟩ := (isPrefixOf_iff_append _ _).mp hpre
        exact ⟨[], s, by simpa using hs⟩
      · obtain ⟨pre, post, hp⟩ := ih.mp hinf
        exact ⟨c :: pre, post, by simp [hp]⟩
    · rintro ⟨pre, post, hp⟩
      cases pre with
      | nil =>
        left
        exact (isPrefixOf_iff_append _ _).mpr ⟨post, by simpa using hp⟩
      | cons d pre2 =>
        right
        apply ih.mpr
        refine ⟨pre2, post, ?_⟩
        simp only [List.cons_append, List.cons.injEq] at hp
        exact hp.2

/-! Claim theorems. -/

/-- C1 counterexample: asked against an index holding zero chunks, the query
route does not return a sentinel response; it raises HTTPException with
status 400. -/
theorem c1_counterexample :
    query_documents 0 ⟨[], [], none⟩ (fun _ => Except.ok "answer") "q" "t"
      = Except.error
          (400, "No documents have been indexed yet. Please upload documents first.") := rfl

/-- C1 amended: for every query against an index holding zero chunks, the ask
operation raises an HTTP 400 error with the fixed detail string, before any
retrieval or generation, instead of returning a sentinel response. -/
theorem c1_amended_zero_chunk_raises_400 :
    ∀ (sr : SearchResults) (backend : String → Except String String) (q now : String),
      query_documents 0 sr backend q now
        = Except.error
            (400, "No documents have been indexed yet. Please upload documents first.") := by
  intro sr backend q now
  rfl

/-- C2 counterexample: constructing the chunker with overlap equal to size
(overlap ≥ size) is not rejected; the constructor succeeds and stores the
pair. -/
theorem c2_counterexample :
    DocumentProcessor.init 4 4 = Except.ok ⟨4, 4⟩ := rfl

/-- C2 amended: the chunker constructor performs no validation at all; every
(size, overlap) pair, including every pair with overlap ≥ size, is accepted
at construction time and stored unchanged.  No ConfigurationError is raised
there. -/
theorem c2_amended_no_constructor_validation :
    ∀ (size overlap : Int),
      DocumentProcessor.init size overlap = Except.ok ⟨size, overlap⟩ := by
  intro size overlap
  rfl

/-- C3: for every text and every valid configuration (size > 0,
0 ≤ overlap < size), chunk_text equals the sliding-window algorithm of the
spec (windows at stride size − overlap from offset 0, trimmed, empty windows
skipped, stopping at the window reaching the end; empty input gives []); in
particular chunking "A. B. C." with size 4 and overlap 1 gives
["A. B", "B. C", "C."]. -/
theorem c3_chunk_matches_spec :
    (∀ (p : DocumentProcessor) (text : List Char),
        0 < p.chunk_size → 0 ≤ p.chunk_overlap → p.chunk_overlap < p.chunk_size →
        chunk_text p text = Except.ok (chunkSpec p.chunk_size p.chunk_overlap text)) ∧
    chunk_text ⟨4, 1⟩ "A. B. C.".toList
      = Except.ok ["A. B".toList, "B. C".toList, "C.".toList] := by
  constructor
  · intro p text hsize hov hltr
    by_cases ht : text = []
    · simp [chunk_text, chunkSpec, ht]
    · have h0 : ¬(p.chunk_size - p.chunk_overlap = 0) := by omega
      have hneg : ¬(p.chunk_size - p.chunk_overlap < 0) := by omega
      simp only [chunk_text, chunkSpec, if_neg ht, if_neg h0, if_neg hneg, Except.ok.injEq]
      exact chunkLoop_eq_specWindows text p.chunk_size.toNat
        (p.chunk_size - p.chunk_overlap).toNat (by omega) text.length (text.length + 1) 0
        (by omega) (by omega)
  · rfl

/-- C3 witness: the general equality instantiated at size 4, overlap 1 and
the scenario text. -/
theorem c3_witness :
    (0 : Int) < 4 ∧ (0 : Int) ≤ 1 ∧ (1 : Int) < 4 ∧
      chunk_text ⟨4, 1⟩ "A. B. C.".toList
        = Except.ok (chunkSpec 4 1 "A. B. C.".toList) :=
  ⟨by decide, by decide, by decide,
    c3_chunk_matches_spec.1 ⟨4, 1⟩ "A. B. C.".toList (by decide) (by decide) (by decide)⟩

/-- C4: for every retrieved distance d ≥ 0, the relevance score equals
clamp(1 − d, 0, 1) rounded to three decimals, lies in [0, 1], and distances
above 1 map to score 0. -/
theorem c4_relevance_score_clamped :
    ∀ d : ℚ, 0 ≤ d →
      relevance_score d = round3 (clamp (1 - d) 0 1) ∧
      0 ≤ relevance_score d ∧ relevance_score d ≤ 1 ∧
      (1 < d → relevance_score d = 0) := by
  have hround : ∀ x : ℚ, 0 ≤ x → x ≤ 1 → 0 ≤ round3 x ∧ round3 x ≤ 1 := by
    intro x h0 h1
    unfold round3
    constructor
    · apply div_nonneg _ (by norm_num)
      have hmono : round (0 : ℚ) ≤ round (x * 1000) := by
        rw [round_eq, round_eq]
        exact Int.floor_le_floor (by linarith)
      rw [round_zero] at hmono
      exact_mod_cast hmono
    · rw [div_le_one (by norm_num)]
      have hmono : round (x * 1000) ≤ round (((1000 : ℤ) : ℚ)) := by
        rw [round_eq, round_eq]
        exact Int.floor_le_floor (by push_cast; linarith)
      rw [round_intCast] at hmono
      exact_mod_cast hmono
  have hr0 : round3 0 = 0 := by
    simp [round3]
  intro d hd
  by_cases h1 : d ≤ 1
  · have hsim : similarity d = 1 - d := if_pos h1
    have hclamp : clamp (1 - d) 0 1 = 1 - d := by
      unfold clamp
      rw [min_eq_left (by linarith), max_eq_right (by linarith)]
    obtain ⟨ha, hb⟩ := hround (1 - d) (by linarith) (by linarith)
    refine ⟨?_, ?_, ?_, ?_⟩
    · unfold relevance_score
      rw [hsim, hclamp]
    · unfold relevance_score
      rw [hsim]
      exact ha
    · unfold relevance_score
      rw [hsim]
      exact hb
    · intro hlt
      linarith
  · push_neg at h1
    have hsim : similarity d = 0 := if_neg (not_le.mpr h1)
    have hclamp : clamp (1 - d) 0 1 = 0 := by
      unfold clamp
      rw [min_eq_left (by linarith), max_eq_left (by linarith)]
    refine ⟨?_, ?_, ?_, ?_⟩
    · unfold relevance_score
      rw [hsim, hclamp, hr0]
    · unfold relevance_score
      rw [hsim, hr0]
    · unfold relevance_score
      rw [hsim, hr0]
      norm_num
    · intro _
      unfold relevance_score
      rw [hsim, hr0]

/-- C4 witness: the score facts instantiated at distance 2. -/
theorem c4_witness :
    0 ≤ (2 : ℚ) ∧
      (relevance_score 2 = round3 (clamp (1 - 2) 0 1) ∧
        0 ≤ relevance_score 2 ∧ relevance_score 2 ≤ 1 ∧
        (1 < (2 : ℚ) → relevance_score 2 = 0)) :=
  ⟨by decide, c4_relevance_score_clamped 2 (by decide)⟩

/-- C5: delete_document removes exactly the chunks whose metadata matches the
given document id and returns their count; with no match it returns 0 and
leaves the collection unchanged; afterwards no stored chunk carries that
document id and the chunk count has decreased by exactly the returned count.
The chunk-id uniqueness hypothesis is the stored invariant of the index
(chunk ids are derived from document id and chunk index). -/
theorem c5_delete_document_exact :
    ∀ (st : List ChunkRecord) (d : String),
      (st.map fun e => e.id).Nodup →
      (delete_document st d).2 = st.filter (fun e => !(e.document_id == d)) ∧
      (delete_document st d).1 = (st.filter fun e => e.document_id == d).length ∧
      (∀ e ∈ (delete_document st d).2, e.document_id ≠ d) ∧
      (delete_document st d).2.length + (delete_document st d).1 = st.length := by
  intro st d hnodup
  have hmemiff : ∀ e ∈ st, (e.id ∈ chromaGetIds st d ↔ (e.document_id == d) = true) := by
    intro e he
    constructor
    · intro hmem
      unfold chromaGetIds at hmem
      obtain ⟨e2, he2mem, he2id⟩ := List.mem_map.mp hmem
      obtain ⟨he2st, he2match⟩ := List.mem_filter.mp he2mem
      have he2e : e2 = e := List.inj_on_of_nodup_map hnodup he2st he he2id
      rwa [← he2e]
    · intro hm
      exact List.mem_map_of_mem _ (List.mem_filter.mpr ⟨he, hm⟩)
  have hstate : (delete_document st d).2 = st.filter fun e => !(e.document_id == d) := by
    unfold delete_document
    by_cases hids : (chromaGetIds st d).isEmpty
    · simp only [if_pos hids]
      have hnil : chromaGetIds st d = [] := List.isEmpty_iff.mp hids
      unfold chromaGetIds at hnil
      have hfil := List.map_eq_nil_iff.mp hnil
      symm
      rw [List.filter_eq_self]
      intro a ha
      simp [List.filter_eq_nil_iff.mp hfil a ha]
    · simp only [if_neg hids]
      unfold chromaDelete
      apply List.filter_congr
      intro e he
      by_cases hm : (e.document_id == d) = true
      · have hin : e.id ∈ chromaGetIds st d := (hmemiff e he).mpr hm
        simp [hin, hm]
      · have hout : e.id ∉ chromaGetIds st d := fun hmem => hm ((hmemiff e he).mp hmem)
        simp [hout, hm]
  have hcount : (delete_document st d).1 = (st.filter fun e => e.document_id == d).length := by
    unfold delete_document
    by_cases hids : (chromaGetIds st d).isEmpty
    · simp only [if_pos hids]
      have hnil : chromaGetIds st d = [] := List.isEmpty_iff.mp hids
      unfold chromaGetIds at hnil
      simp [List.map_eq_nil_iff.mp hnil]
    · simp only [if_neg hids]
      unfold chromaGetIds
      rw [List.length_map]
  refine ⟨hstate, hcount, ?_, ?_⟩
  · intro e he
    rw [hstate] at he
    have hfail := (List.mem_filter.mp he).2
    simpa using hfail
  · rw [hstate, hcount]
    exact length_filter_not_add (fun e => e.document_id == d) st

/-- C5 witness: deletion instantiated on a two-document collection, removing
the single chunk of document d1. -/
theorem c5_witness :
    (([⟨"d1_chunk_0", "d1", "a.txt", 0⟩, ⟨"d2_chunk_0", "d2", "b.txt", 0⟩] :
          List ChunkRecord).map fun e => e.id).Nodup ∧
      ((delete_document
            [⟨"d1_chunk_0", "d1", "a.txt", 0⟩, ⟨"d2_chunk_0", "d2", "b.txt", 0⟩] "d1").2
          = ([⟨"d1_chunk_0", "d1", "a.txt", 0⟩, ⟨"d2_chunk_0", "d2", "b.txt", 0⟩] :
              List ChunkRecord).filter (fun e => !(e.document_id == "d1")) ∧
        (delete_document
            [⟨"d1_chunk_0", "d1", "a.txt", 0⟩, ⟨"d2_chunk_0", "d2", "b.txt", 0⟩] "d1").1
          = (([⟨"d1_chunk_0", "d1", "a.txt", 0⟩, ⟨"d2_chunk_0", "d2", "b.txt", 0⟩] :
              List ChunkRecord).filter fun e => e.document_id == "d1").length ∧
        (∀ e ∈ (delete_document
            [⟨"d1_chunk_0", "d1", "a.txt", 0⟩, ⟨"d2_chunk_0", "d2", "b.txt", 0⟩] "d1").2,
          e.document_id ≠ "d1") ∧
        (delete_document
            [⟨"d1_chunk_0", "d1", "a.txt", 0⟩, ⟨"d2_chunk_0", "d2", "b.txt", 0⟩] "d1").2.length
            + (delete_document
                [⟨"d1_chunk_0", "d1", "a.txt", 0⟩, ⟨"d2_chunk_0", "d2", "b.txt", 0⟩] "d1").1
          = ([⟨"d1_chunk_0", "d1", "a.txt", 0⟩, ⟨"d2_chunk_0", "d2", "b.txt", 0⟩] :
              List ChunkRecord).length) :=
  ⟨by decide,
    c5_delete_document_exact
      [⟨"d1_chunk_0", "d1", "a.txt", 0⟩, ⟨"d2_chunk_0", "d2", "b.txt", 0⟩] "d1" (by decide)⟩

/-- C6: whenever the generation backend fails, generate_response still
returns a structured response whose answer is the descriptive error string,
with query and timestamp as usual, and the sources list is the one extracted
from the search results, identical regardless of generation success or
failure. -/
theorem c6_generation_failure_degrades :
    ∀ (q : String) (sr : SearchResults) (e now : String)
      (backend : String → Except String String),
      (generate_response q sr (fun _ => Except.error e) now).answer
          = "Error generating response: " ++ e ∧
      (generate_response q sr (fun _ => Except.error e) now).query = q ∧
      (generate_response q sr (fun _ => Except.error e) now).timestamp = now ∧
      (generate_response q sr (fun _ => Except.error e) now).sources
          = extract_sources sr ∧
      (generate_response q sr backend now).sources
          = (generate_response q sr (fun _ => Except.error e) now).sources := by
  intro q sr e now backend
  exact ⟨rfl, rfl, rfl, rfl, rfl⟩

/-- C7: for every text of length at least 1 and every valid configuration,
every character position of the text lies inside at least one
emitted-or-skipped window of the chunking loop. -/
theorem c7_window_coverage :
    ∀ (p : DocumentProcessor) (text : List Char) (j : Nat),
      0 < p.chunk_size → 0 ≤ p.chunk_overlap → p.chunk_overlap < p.chunk_size →
      j < text.length →
      ∃ off ∈ chunkOffsets text.length p.chunk_size.toNat
          (p.chunk_size - p.chunk_overlap).toNat 0 text.length,
        off ≤ j ∧ j < off + p.chunk_size.toNat := by
  intro p text j h1 h2 h3 hj
  exact chunkOffsets_cover text.length p.chunk_size.toNat
    (p.chunk_size - p.chunk_overlap).toNat (by omega) (by omega) text.length 0 j
    (by omega) (Nat.zero_le j) hj

/-- C7 witness: coverage instantiated at size 4, overlap 1, the scenario text
and position 5. -/
theorem c7_witness :
    (0 : Int) < 4 ∧ (0 : Int) ≤ 1 ∧ (1 : Int) < 4 ∧ 5 < "A. B. C.".toList.length ∧
      ∃ off ∈ chunkOffsets "A. B. C.".toList.length (4 : Int).toNat
          ((4 : Int) - 1).toNat 0 "A. B. C.".toList.length,
        off ≤ 5 ∧ 5 < off + (4 : Int).toNat :=
  ⟨by decide, by decide, by decide, by decide,
    c7_window_coverage ⟨4, 1⟩ "A. B. C.".toList 5 (by decide) (by decide) (by decide)
      (by decide)⟩

/-- C8 counterexample: with backend model list ["xllama"] and configured
model "llama", the availability check reports the model present although the
listed name neither equals the configured name nor starts with it; the
source test is a substring test, not an equality-or-initial-segment test. -/
theorem c8_counterexample :
    check_ollama_available "llama" (Except.ok ["xllama"]) = true ∧
      ¬("xllama" = "llama" ∨ "llama".toList.isPrefixOf "xllama".toList = true) := by
  decide

/-- C8 amended: the availability check reports the configured model present
if and only if some listed name contains the configured model name as a
contiguous substring (which subsumes equality and initial-segment matches),
and it returns false whenever the backend listing call fails. -/
theorem c8_amended_substring_match :
    ∀ (model : String) (names : List String),
      (check_ollama_available model (Except.ok names) = true ↔
        ∃ n ∈ names, ∃ pre post, n.toList = pre ++ model.toList ++ post) ∧
      ∀ err : String, check_ollama_available model (Except.error err) = false := by
  intro model names
  constructor
  · unfold check_ollama_available
    rw [List.any_eq_true]
    constructor
    · rintro ⟨n, hn, hcond⟩
      rw [Bool.or_eq_true] at hcond
      rcases hcond with hinf | hpre
      · exact ⟨n, hn, (isInfixB_iff _ _).mp hinf⟩
      · obtain ⟨t, ht⟩ := (isPrefixOf_iff_append _ _).mp hpre
        exact ⟨n, hn, [], t, by simpa using ht⟩
    · rintro ⟨n, hn, pre, post, hp⟩
      refine ⟨n, hn, ?_⟩
      rw [Bool.or_eq_true]
      left
      exact (isInfixB_iff _ _).mpr ⟨pre, post, hp⟩
  · intro err
    rfl

/-- C9: with overlap strictly greater than size the stride is negative, the
Python range is empty and chunk_text returns [] for every input; with
overlap equal to size the stride is zero and the range call raises ValueError
for every non-empty input. -/
theorem c9_degenerate_strides :
    (∀ (p : DocumentProcessor) (text : List Char),
        p.chunk_size < p.chunk_overlap → chunk_text p text = Except.ok []) ∧
    (∀ (p : DocumentProcessor) (text : List Char),
        p.chunk_overlap = p.chunk_size → text ≠ [] →
        chunk_text p text = Except.error "ValueError: range() arg 3 must not be zero") := by
  constructor
  · intro p text h
    by_cases ht : text = []
    · simp [chunk_text, ht]
    · have h0 : ¬(p.chunk_size - p.chunk_overlap = 0) := by omega
      have hneg : p.chunk_size - p.chunk_overlap < 0 := by omega
      simp only [chunk_text, if_neg ht, if_neg h0, if_pos hneg]
  · intro p text h ht
    have h0 : p.chunk_size - p.chunk_overlap = 0 := by omega
    simp only [chunk_text, if_neg ht, if_pos h0]

/-- C9 witness: the two degenerate configurations instantiated at size 2
with overlap 3 (negative stride) and overlap 2 (zero stride) on the text
"ab". -/
theorem c9_witness :
    ((2 : Int) < 3 ∧ chunk_text ⟨2, 3⟩ "ab".toList = Except.ok []) ∧
      ((2 : Int) = 2 ∧ "ab".toList ≠ [] ∧
        chunk_text ⟨2, 2⟩ "ab".toList
          = Except.error "ValueError: range() arg 3 must not be zero") :=
  ⟨⟨by decide, c9_degenerate_strides.1 ⟨2, 3⟩ "ab".toList (by decide)⟩,
    ⟨rfl, by decide, c9_degenerate_strides.2 ⟨2, 2⟩ "ab".toList rfl (by decide)⟩⟩

/-- C10: under a valid configuration every chunk returned by chunk_text is
non-empty, has no leading or trailing whitespace, and is at most chunk_size
characters long. -/
theorem c10_chunk_invariants :
    ∀ (p : DocumentProcessor) (text : List Char) (chunks : List (List Char)),
      0 < p.chunk_size → 0 ≤ p.chunk_overlap → p.chunk_overlap < p.chunk_size →
      chunk_text p text = Except.ok chunks →
      ∀ c ∈ chunks,
        c ≠ [] ∧ noSpaceAt c.head? = true ∧ noSpaceAt c.getLast? = true ∧
          (c.length : Int) ≤ p.chunk_size := by
  intro p text chunks h1 h2 h3 heq c hc
  by_cases ht : text = []
  · simp only [chunk_text, if_pos ht, Except.ok.injEq] at heq
    subst heq
    simp at hc
  · have h0 : ¬(p.chunk_size - p.chunk_overlap = 0) := by omega
    have hneg : ¬(p.chunk_size - p.chunk_overlap < 0) := by omega
    simp only [chunk_text, if_neg ht, if_neg h0, if_neg hneg, Except.ok.injEq] at heq
    subst heq
    rw [chunkLoop_eq_offsets] at hc
    obtain ⟨off, hoff, hemit⟩ := List.mem_filterMap.mp hc
    unfold emitWindow at hemit
    by_cases hw : pyStrip ((text.drop off).take p.chunk_size.toNat) = []
    · simp [hw] at hemit
    · rw [if_neg hw] at hemit
      have hc_eq : pyStrip ((text.drop off).take p.chunk_size.toNat) = c :=
        Option.some.inj hemit
      refine ⟨hc_eq ▸ hw, ?_, ?_, ?_⟩
      · unfold noSpaceAt
        cases hh : c.head? with
        | none => rfl
        | some a =>
          rw [← hc_eq] at hh
          simp [pyStrip_head?_not_space _ a hh]
      · unfold noSpaceAt
        cases hh : c.getLast? with
        | none => rfl
        | some a =>
          rw [← hc_eq] at hh
          simp [pyStrip_getLast?_not_space _ a hh]
      · have hlen : c.length ≤ p.chunk_size.toNat := by
          rw [← hc_eq]
          exact le_trans (pyStrip_length_le _) (List.length_take_le _ _)
        omega

/-- C10 witness: the invariants instantiated at size 4, overlap 1, the
scenario text and its first chunk. -/
theorem c10_witness :
    (0 : Int) < 4 ∧ (0 : Int) ≤ 1 ∧ (1 : Int) < 4 ∧
      ("A. B".toList ≠ [] ∧ noSpaceAt "A. B".toList.head? = true ∧
        noSpaceAt "A. B".toList.getLast? = true ∧
        ("A. B".toList.length : Int) ≤ 4) :=
  ⟨by decide, by decide, by decide,
    c10_chunk_invariants ⟨4, 1⟩ "A. B. C.".toList
      ["A. B".toList, "B. C".toList, "C.".toList] (by decide) (by decide) (by decide) rfl
      "A. B".toList (by decide)⟩

end ECommRAG
